import Mathlib

/-!
Verification of the rs-es ElasticSearch client core (`src/lib.rs`) against its
natural-language specification.

The embedding models the JSON values handled by `rustc_serialize::json::Json`,
the HTTP response classification of `do_req`, the `Client` struct with its
`full_url` builder, the macro-generated HTTP helpers `es_op`/`es_body_op`
(with an explicit request trace standing for the single `hyper` round trip),
and `Client::version`.  Parts of the repository referenced from `lib.rs` but
not present under `src/` (the `error` module's conversions, the bulk operation
encoding, the operation builders' optional parameters) are modelled from the
specification and marked as such in their doc comments.
-/

/-- JSON values, mirroring `rustc_serialize::json::Json`
(variants Null, Boolean, I64/U64/F64 collapsed to an integer constructor,
String, Array, Object). -/
inductive Json where
  | null : Json
  | bool (b : Bool) : Json
  | num (n : Int) : Json
  | str (s : String) : Json
  | arr (xs : List Json) : Json
  | obj (fields : List (String × Json)) : Json

namespace Json

/-- Look up the value for a key in an object field list (first match). -/
def lookupField : List (String × Json) → String → Option Json
  | [], _ => none
  | (k, v) :: rest, key => if k = key then some v else lookupField rest key

/-- Rust `Json::find`: on an Object, look up the value for `key` (first match);
on any other variant, `None`. -/
def find (j : Json) (key : String) : Option Json :=
  match j with
  | .obj fields => lookupField fields key
  | _ => none

/-- Rust `Json::find_path`: navigate a sequence of keys with `find`, failing if
any step fails. -/
def find_path (j : Json) (keys : List String) : Option Json :=
  match keys with
  | [] => some j
  | k :: rest =>
    match j.find k with
    | some j1 => j1.find_path rest
    | none => none

/-- Rust `Json::as_string`: `Some` exactly on the String variant. -/
def as_string : Json → Option String
  | .str s => some s
  | _ => none

/-- Rust `Json::as_boolean`: `Some` exactly on the Boolean variant. -/
def as_boolean : Json → Option Bool
  | .bool b => some b
  | _ => none

/-- Rust `Json::as_array`: `Some` exactly on the Array variant. -/
def as_array : Json → Option (List Json)
  | .arr xs => some xs
  | _ => none

/-- A rendering of a `Json` value standing for the `{:?}` debug formatting
used in `Client::version`'s error messages (the exact text is irrelevant to
every claim; only that the error carries a description mentioning the value). -/
def render : Json → String
  | .null => "Null"
  | .bool b => toString b
  | .num n => toString n
  | .str s => "\"" ++ s ++ "\""
  | .arr _ => "Array"
  | .obj _ => "Object"

end Json

/-- The error type `error::EsError`.  `error.rs` is not under `src/`;
modelled from the spec: the §7 taxonomy (TransportError, EncodingError,
EngineError carrying status and raw body, plus the descriptive
`EsError::EsError(String)` variant that `Client::version` constructs in
`lib.rs`). -/
inductive EsError where
  /-- Descriptive error message (`EsError::EsError(String)` in `lib.rs`). -/
  | EsError (msg : String) : EsError
  /-- Modelled from the spec: a non-success, non-404 status; carries the
  status code and raw response body (`EsError::from(&mut Response)`). -/
  | EngineError (status : Nat) (rawBody : String) : EsError
  /-- Modelled from the spec: a request body failed to serialize or a
  response body failed to parse as JSON (`EsError::from` on the
  `rustc_serialize` error). -/
  | EncodingError (detail : String) : EsError
  /-- Modelled from the spec: the underlying HTTP call could not complete
  (`EsError::from` on the `hyper` error). -/
  | TransportError (detail : String) : EsError
deriving Repr, DecidableEq

/-- A `hyper` HTTP response as `do_req` observes it: a status code, the raw
body text, and the outcome of `Json::from_reader` on the body (`some j` when
the body parses as JSON value `j`, `none` when the body is absent or fails to
parse — `from_reader` on an empty reader is a parse error). -/
structure HttpResponse where
  status : Nat
  rawBody : String
  parsedBody : Option Json

/-- Rust `do_req` (`lib.rs` lines 63–75): classify an HTTP response.  Status 200
(Ok), 201 (Created) or 404 (NotFound): parse the body as JSON; a parse
success yields `Ok((status, Some(json)))`, a parse failure yields the
converted `rustc_serialize` error (an EncodingError).  Any other status
yields `EsError::from(resp)` (an EngineError carrying status and raw body,
modelled from the spec since `error.rs` is not under `src/`). -/
def do_req (resp : HttpResponse) : Except EsError (Nat × Option Json) :=
  if resp.status = 200 ∨ resp.status = 201 ∨ resp.status = 404 then
    match resp.parsedBody with
    | some json => .ok (resp.status, some json)
    | none => .error (.EncodingError resp.rawBody)
  else
    .error (.EngineError resp.status resp.rawBody)

/-- HTTP methods used by the macro-generated helpers. -/
inductive Method where
  | GET | POST | PUT | DELETE
deriving Repr, DecidableEq

/-- One transport round trip as issued by `hyper`: method, absolute URL, and
optional request body. -/
structure Request where
  method : Method
  url : String
  body : Option String
deriving Repr, DecidableEq

/-- The external blocking transport: a request either completes with an
`HttpResponse` or fails with a transport error description. -/
def Transport : Type := Request → Except String HttpResponse

/-- The `Client` struct (`lib.rs` lines 104–107): the configured base URL and
the `hyper` connection handle (opaque here; its internal state lives behind
the `Transport` collaborator). -/
structure Client where
  base_url : String
  http_client : Nat
deriving Repr, DecidableEq

namespace Client

/-- Rust `Client::new`: base URL `http://host:port`, fresh connection handle. -/
def new (host : String) (port : Nat) : Client :=
  { base_url := "http://" ++ host ++ ":" ++ toString port,
    http_client := 0 }

/-- Rust `Client::full_url`: `format!("{}/{}", self.base_url, suffix)`. -/
def full_url (c : Client) (suffix : String) : String :=
  c.base_url ++ "/" ++ suffix

end Client

/-- The `es_op!` macro body (`lib.rs` lines 110–120), one instance per method
(`get_op`, `post_op`, `put_op`, `delete_op`): build the full URL, perform one
`send()` on the transport, classify via `do_req`.  The returned list is the
trace of transport round trips performed by the call; the returned `Client`
is the state of `self` afterwards (the method never assigns to any field). -/
def es_op (c : Client) (m : Method) (t : Transport) (url : String) :
    Client × Except EsError (Nat × Option Json) × List Request :=
  let full := c.full_url url
  let req : Request := { method := m, url := full, body := none }
  match t req with
  | .error e => (c, .error (.TransportError e), [req])
  | .ok resp => (c, do_req resp, [req])

/-- The `es_body_op!` macro body (`lib.rs` lines 124–141), one instance per
method (`post_body_op`, `put_body_op`, `delete_body_op`): first
`try!(json::encode(body))` — the encoding outcome of the caller-supplied
`Encodable` value is the `encoded` argument, and a failure is converted by
`try!` into an error return before the URL is built or the transport touched
— then build the full URL, perform one `send()` with the body, classify via
`do_req`. -/
def es_body_op (c : Client) (m : Method) (t : Transport) (url : String)
    (encoded : Except String String) :
    Client × Except EsError (Nat × Option Json) × List Request :=
  match encoded with
  | .error e => (c, .error (.EncodingError e), [])
  | .ok json_string =>
    let full := c.full_url url
    let req : Request := { method := m, url := full, body := some json_string }
    match t req with
    | .error e => (c, .error (.TransportError e), [req])
    | .ok resp => (c, do_req resp, [req])

/-- Rust `get_op` as generated by `es_op!(get_op, get)`. -/
def get_op (c : Client) (t : Transport) (url : String) :
    Client × Except EsError (Nat × Option Json) × List Request :=
  es_op c .GET t url

/-- Rust `post_op` as generated by `es_op!(post_op, post)`. -/
def post_op (c : Client) (t : Transport) (url : String) :
    Client × Except EsError (Nat × Option Json) × List Request :=
  es_op c .POST t url

/-- Rust `put_op` as generated by `es_op!(put_op, put)`. -/
def put_op (c : Client) (t : Transport) (url : String) :
    Client × Except EsError (Nat × Option Json) × List Request :=
  es_op c .PUT t url

/-- Rust `delete_op` as generated by `es_op!(delete_op, delete)`. -/
def delete_op (c : Client) (t : Transport) (url : String) :
    Client × Except EsError (Nat × Option Json) × List Request :=
  es_op c .DELETE t url

/-- Rust `post_body_op` as generated by `es_body_op!(post_body_op, post)`. -/
def post_body_op (c : Client) (t : Transport) (url : String)
    (encoded : Except String String) :
    Client × Except EsError (Nat × Option Json) × List Request :=
  es_body_op c .POST t url encoded

/-- Rust `put_body_op` as generated by `es_body_op!(put_body_op, put)`. -/
def put_body_op (c : Client) (t : Transport) (url : String)
    (encoded : Except String String) :
    Client × Except EsError (Nat × Option Json) × List Request :=
  es_body_op c .PUT t url encoded

/-- Rust `delete_body_op` as generated by `es_body_op!(delete_body_op, delete)`. -/
def delete_body_op (c : Client) (t : Transport) (url : String)
    (encoded : Except String String) :
    Client × Except EsError (Nat × Option Json) × List Request :=
  es_body_op c .DELETE t url encoded

/-- The JSON-navigation part of `Client::version` (`lib.rs` lines 171–179):
find the path `version.number`; if present and a string, `Ok` of it;
otherwise the descriptive `EsError::EsError` (the source uses the message
"Cannot find version number in: {:?}" when the value is not a string and
"Cannot find version number in {:?}" when the path is absent). -/
def version_decode (json : Json) : Except EsError String :=
  match json.find_path ["version", "number"] with
  | some version =>
    match version.as_string with
    | some string => .ok string
    | none =>
      .error (.EsError ("Cannot find version number in: " ++ json.render))
  | none =>
    .error (.EsError ("Cannot find version number in " ++ json.render))

/-- Rust `Client::version` (`lib.rs` lines 168–180): `get_op("/")`, then
`result.expect("No Json payload")` — the `expect` panic on a success outcome
without a body is modelled as the `none` result — then navigate
`version.number` via `version_decode`. -/
def version (c : Client) (t : Transport) :
    Client × Option (Except EsError String) × List Request :=
  match get_op c t "/" with
  | (c1, .error e, trace) => (c1, some (.error e), trace)
  | (c1, .ok (_, body), trace) =>
    match body with
    | none => (c1, none, trace)
    | some json => (c1, some (version_decode json), trace)

/-- A Boolean view of whether a classified outcome is a success. -/
def isSuccess (r : Except EsError (Nat × Option Json)) : Bool :=
  match r with
  | .ok _ => true
  | .error _ => false

namespace bulk

/-- A bulk action.  Modelled from the spec: `operations/bulk.rs` is not under
`src/`; §3 defines an Action as "one of Index/Create/Update/Delete, each
carrying an optional id and (for non-delete) a document payload". -/
inductive Action where
  | index (id : Option String) (doc : Json) : Action
  | create (id : Option String) (doc : Json) : Action
  | update (id : Option String) (doc : Json) : Action
  | delete (id : Option String) : Action

/-- The engine-defined operator name of an action. -/
def Action.name : Action → String
  | .index _ _ => "index"
  | .create _ _ => "create"
  | .update _ _ => "update"
  | .delete _ => "delete"

/-- The optional id carried by an action. -/
def Action.id : Action → Option String
  | .index i _ => i
  | .create i _ => i
  | .update i _ => i
  | .delete i => i

/-- The document payload: present for Index/Create/Update, absent for
Delete. -/
def Action.doc : Action → Option Json
  | .index _ d => some d
  | .create _ d => some d
  | .update _ d => some d
  | .delete _ => none

/-- Whether the action is a Delete. -/
def Action.isDelete : Action → Bool
  | .delete _ => true
  | _ => false

/-- An optional JSON object entry: present only when the value is set. -/
def optField (k : String) (v : Option String) : List (String × Json) :=
  match v with
  | some s => [(k, Json.str s)]
  | none => []

/-- Modelled from the spec: the metadata line of a bulk action — a JSON
object keyed by the action's operator name, naming the target (index, type,
id when present; the bulk operation's optional default index/type fill the
target for every action, §4.3). -/
def Action.meta_line (defaultIndex defaultType : Option String) (a : Action) : Json :=
  Json.obj [(a.name,
    Json.obj (optField "_index" defaultIndex ++ optField "_type" defaultType ++
              optField "_id" a.id))]

/-- Modelled from the spec: each Action serializes as exactly one or two
newline-terminated JSON lines — the metadata line, followed by the
source-document line for Index/Create/Update (omitted for Delete), §4.3. -/
def Action.to_lines (defaultIndex defaultType : Option String) (a : Action) :
    List Json :=
  match a.doc with
  | some d => [a.meta_line defaultIndex defaultType, d]
  | none => [a.meta_line defaultIndex defaultType]

/-- Modelled from the spec: the NDJSON request body of a bulk submission is
the per-action lines concatenated in submission order (each line rendered and
terminated by a newline). -/
def bulk_lines (defaultIndex defaultType : Option String)
    (actions : List Action) : List Json :=
  actions.flatMap (Action.to_lines defaultIndex defaultType)

/-- Modelled from the spec: the decoded bulk result — `errors:boolean` and
the ordered sequence of per-item outcomes, §4.3. -/
structure BulkResult where
  errors : Bool
  items : List Json

/-- Modelled from the spec: decoding a bulk response reads the `errors`
boolean and the `items` array, keeping the per-item outcomes in response
order. -/
def decode_bulk_result (j : Json) : Option BulkResult :=
  match (j.find "errors").bind Json.as_boolean,
        (j.find "items").bind Json.as_array with
  | some e, some its => some { errors := e, items := its }
  | _, _ => none

end bulk

/-- Modelled from the spec: the op-type of an index operation — `index`
(overwrite-or-create) vs `create` (fail-if-exists), §4.3. -/
inductive OpType where
  | IndexDoc
  | CreateDoc
deriving Repr, DecidableEq

/-- The wire name of an op-type. -/
def OpType.wire : OpType → String
  | .IndexDoc => "index"
  | .CreateDoc => "create"

/-- An optional request parameter: a key/value pair present only when the
value is set. -/
def opt_param (k : String) (v : Option String) : List (String × String) :=
  match v with
  | some s => [(k, s)]
  | none => []

/-- A comma-joined rendering of a list parameter value (index lists, field
lists) for the request. -/
def joinComma (xs : List String) : String :=
  String.intercalate "," xs

namespace operations

/-- An operation builder state, one variant per API operation defined on
`Client` in `lib.rs` (index, get, delete, delete-by-query, bulk, search-uri,
search-query, analyze, refresh).  The required fields of each variant are the
arguments of the corresponding `Client` method in `lib.rs` (lines 187–260);
the optional fields are modelled from the spec, §3 and §4.3, since the
`operations` modules are not under `src/`: every optional field defaults to
absent and is included in the outgoing request only when explicitly set. -/
inductive Operation where
  | indexOp (index doc_type : String) (id : Option String) (ttl : Option Nat)
      (op_type : Option OpType) : Operation
  | getOp (index id : String) (doc_type : Option String)
      (fields : Option (List String)) : Operation
  | deleteOp (index doc_type id : String) : Operation
  | deleteByQueryOp (query : Option Json) (indexes : Option (List String))
      (doc_types : Option (List String)) : Operation
  | bulkOp (actions : List bulk.Action) (index : Option String)
      (doc_type : Option String) : Operation
  | searchUriOp (indexes : Option (List String)) (query : Option String)
      (fields : Option (List String)) : Operation
  | searchQueryOp (indexes : Option (List String)) (query : Option Json) : Operation
  | analyzeOp (body : String) : Operation
  | refreshOp (indexes : Option (List String)) : Operation

/-- Modelled from the spec: the serialized optional parameters of each
operation's request — one key per optional field, present exactly when the
field is set (§3 invariants, §8 "for all Operations, an optional field left
unset never appears as a key").  Channels that are not parameter keys are
excluded: an Index id and a Get/Delete target select the URL and method; a
query-DSL tree is the request body; Bulk's optional default index/type
serialize inside the NDJSON metadata lines (`bulk.Action.meta_line`), covered
separately. -/
def Operation.opt_params : Operation → List (String × String)
  | .indexOp _ _ _ ttl op_type =>
      opt_param "ttl" (ttl.map toString) ++
      opt_param "op_type" (op_type.map OpType.wire)
  | .getOp _ _ doc_type fields =>
      opt_param "doc_type" doc_type ++
      opt_param "fields" (fields.map joinComma)
  | .deleteOp _ _ _ => []
  | .deleteByQueryOp _ indexes doc_types =>
      opt_param "indexes" (indexes.map joinComma) ++
      opt_param "doc_types" (doc_types.map joinComma)
  | .bulkOp _ _ _ => []
  | .searchUriOp indexes query fields =>
      opt_param "indexes" (indexes.map joinComma) ++
      opt_param "q" query ++
      opt_param "fields" (fields.map joinComma)
  | .searchQueryOp indexes _ =>
      opt_param "indexes" (indexes.map joinComma)
  | .analyzeOp _ => []
  | .refreshOp indexes => opt_param "indexes" (indexes.map joinComma)

/-- A fresh operation as constructed by the corresponding `Client` method in
`lib.rs`: the method's arguments are the required fields, every optional
field absent. -/
inductive OpInit where
  | indexInit (index doc_type : String) : OpInit
  | getInit (index id : String) : OpInit
  | deleteInit (index doc_type id : String) : OpInit
  | deleteByQueryInit : OpInit
  | bulkInit (actions : List bulk.Action) : OpInit
  | searchUriInit : OpInit
  | searchQueryInit : OpInit
  | analyzeInit (body : String) : OpInit
  | refreshInit : OpInit

/-- The freshly constructed builder for each `Client` method. -/
def OpInit.fresh : OpInit → Operation
  | .indexInit i d => .indexOp i d none none none
  | .getInit i idv => .getOp i idv none none
  | .deleteInit i d idv => .deleteOp i d idv
  | .deleteByQueryInit => .deleteByQueryOp none none none
  | .bulkInit as => .bulkOp as none none
  | .searchUriInit => .searchUriOp none none none
  | .searchQueryInit => .searchQueryOp none none
  | .analyzeInit b => .analyzeOp b
  | .refreshInit => .refreshOp none

/-- One chained setter call on an operation builder, across all builders
(`with_id`, `with_ttl`, `with_op_type`, `with_doc_type`, `with_fields`,
`with_indexes`, `with_doc_types`, `with_query`, `with_index`). -/
inductive OpSetter where
  | withId (i : String) : OpSetter
  | withTtl (n : Nat) : OpSetter
  | withOpType (o : OpType) : OpSetter
  | withDocType (d : String) : OpSetter
  | withFields (fs : List String) : OpSetter
  | withIndexes (ixs : List String) : OpSetter
  | withDocTypes (ds : List String) : OpSetter
  | withQueryStr (q : String) : OpSetter
  | withQueryDsl (q : Json) : OpSetter
  | withIndex (i : String) : OpSetter

/-- The optional-parameter keys a setter call can set (empty for setters
whose field serializes through the URL, the request body, or the bulk
metadata lines rather than as a parameter key). -/
def OpSetter.skeys : OpSetter → List String
  | .withId _ => []
  | .withTtl _ => ["ttl"]
  | .withOpType _ => ["op_type"]
  | .withDocType _ => ["doc_type"]
  | .withFields _ => ["fields"]
  | .withIndexes _ => ["indexes"]
  | .withDocTypes _ => ["doc_types"]
  | .withQueryStr _ => ["q"]
  | .withQueryDsl _ => []
  | .withIndex _ => []

/-- Apply one setter call: it sets the corresponding optional field of the
builder it belongs to.  A setter of another builder leaves the operation
unchanged (in the source such a call does not typecheck, so the no-op rows
are never reached; quantifying over them only strengthens the theorems). -/
def Operation.applySetter : Operation → OpSetter → Operation
  | .indexOp i d _ ttl ot, .withId x => .indexOp i d (some x) ttl ot
  | .indexOp i d idv _ ot, .withTtl n => .indexOp i d idv (some n) ot
  | .indexOp i d idv ttl _, .withOpType o => .indexOp i d idv ttl (some o)
  | .getOp i idv _ fs, .withDocType x => .getOp i idv (some x) fs
  | .getOp i idv dt _, .withFields x => .getOp i idv dt (some x)
  | .deleteByQueryOp q _ dts, .withIndexes x => .deleteByQueryOp q (some x) dts
  | .deleteByQueryOp q ixs _, .withDocTypes x => .deleteByQueryOp q ixs (some x)
  | .deleteByQueryOp _ ixs dts, .withQueryDsl x => .deleteByQueryOp (some x) ixs dts
  | .bulkOp as _ dt, .withIndex x => .bulkOp as (some x) dt
  | .bulkOp as ix _, .withDocType x => .bulkOp as ix (some x)
  | .searchUriOp _ q fs, .withIndexes x => .searchUriOp (some x) q fs
  | .searchUriOp ixs _ fs, .withQueryStr x => .searchUriOp ixs (some x) fs
  | .searchUriOp ixs q _, .withFields x => .searchUriOp ixs q (some x)
  | .searchQueryOp _ q, .withIndexes x => .searchQueryOp (some x) q
  | .searchQueryOp ixs _, .withQueryDsl x => .searchQueryOp ixs (some x)
  | .refreshOp _, .withIndexes x => .refreshOp (some x)
  | op, _ => op

/-- Apply a chained sequence of setter calls, left to right. -/
def Operation.applySetters (op : Operation) (ss : List OpSetter) : Operation :=
  ss.foldl Operation.applySetter op

end operations

/-- One client HTTP helper invocation, for reasoning about sequences of
calls on the same `Client`. -/
inductive ClientCall where
  | getCall (url : String) : ClientCall
  | postCall (url : String) : ClientCall
  | putCall (url : String) : ClientCall
  | deleteCall (url : String) : ClientCall
  | postBodyCall (url : String) (encoded : Except String String) : ClientCall
  | putBodyCall (url : String) (encoded : Except String String) : ClientCall
  | deleteBodyCall (url : String) (encoded : Except String String) : ClientCall
  | versionCall : ClientCall

/-- Run one helper invocation, keeping the resulting client state. -/
def runCall (t : Transport) (c : Client) : ClientCall → Client
  | .getCall u => (get_op c t u).1
  | .postCall u => (post_op c t u).1
  | .putCall u => (put_op c t u).1
  | .deleteCall u => (delete_op c t u).1
  | .postBodyCall u e => (post_body_op c t u e).1
  | .putBodyCall u e => (put_body_op c t u e).1
  | .deleteBodyCall u e => (delete_body_op c t u e).1
  | .versionCall => (version c t).1

/-- Run a sequence of helper invocations, left to right. -/
def runCalls (t : Transport) (c : Client) (calls : List ClientCall) : Client :=
  calls.foldl (runCall t) c

/-- A transport used to instantiate closed statements: it refuses every
request. -/
def tRefuse : Transport := fun _ => .error "connection refused"

/-! ## Helper lemmas -/

/-- A success outcome of `do_req` always carries a parsed JSON body: the
success arm wraps the parse result in `Some` unconditionally. -/
theorem do_req_ok_hasBody (resp : HttpResponse) (st : Nat) (body : Option Json)
    (h : do_req resp = .ok (st, body)) : body.isSome = true := by
  unfold do_req at h
  split at h
  · split at h
    · next j hb =>
        simp only [Except.ok.injEq, Prod.mk.injEq] at h
        rw [← h.2]
        rfl
    · exact Except.noConfusion h
  · exact Except.noConfusion h

/-- The client state returned by `es_op` is the argument client: the method
body never assigns to any field of `self`. -/
theorem es_op_client_eq (c : Client) (m : Method) (t : Transport) (u : String) :
    (es_op c m t u).1 = c := by
  unfold es_op
  cases h : t { method := m, url := c.full_url u, body := none } <;> simp [h]

/-- The trace of `es_op` is exactly one request: the built URL with no
body. -/
theorem es_op_trace (c : Client) (m : Method) (t : Transport) (u : String) :
    (es_op c m t u).2.2 = [{ method := m, url := c.full_url u, body := none }] := by
  unfold es_op
  cases h : t { method := m, url := c.full_url u, body := none } <;> simp [h]

/-- The client state returned by `es_body_op` is the argument client. -/
theorem es_body_op_client_eq (c : Client) (m : Method) (t : Transport)
    (u : String) (enc : Except String String) :
    (es_body_op c m t u enc).1 = c := by
  unfold es_body_op
  cases enc with
  | error e => rfl
  | ok b =>
      cases h : t { method := m, url := c.full_url u, body := some b } <;> simp [h]

/-- The trace of `es_body_op` on a successfully encoded body is exactly one
request carrying that body. -/
theorem es_body_op_trace_ok (c : Client) (m : Method) (t : Transport)
    (u b : String) :
    (es_body_op c m t u (.ok b)).2.2 =
      [{ method := m, url := c.full_url u, body := some b }] := by
  unfold es_body_op
  cases h : t { method := m, url := c.full_url u, body := some b } <;> simp [h]

/-- The trace of `es_body_op` never exceeds one request. -/
theorem es_body_op_trace_le_one (c : Client) (m : Method) (t : Transport)
    (u : String) (enc : Except String String) :
    (es_body_op c m t u enc).2.2.length ≤ 1 := by
  unfold es_body_op
  cases enc with
  | error e => simp
  | ok b =>
      cases h : t { method := m, url := c.full_url u, body := some b } <;> simp [h]

/-- The client state returned by `version` is the argument client. -/
theorem version_client_eq (c : Client) (t : Transport) :
    (version c t).1 = c := by
  unfold version
  split
  · next c1 e trace heq =>
      have h1 : (get_op c t "/").1 = c := es_op_client_eq c .GET t "/"
      rw [heq] at h1
      exact h1
  · next c1 st body trace heq =>
      have h1 : (get_op c t "/").1 = c := es_op_client_eq c .GET t "/"
      rw [heq] at h1
      cases body <;> exact h1

/-- The trace of `version` is exactly one GET on the full URL of "/". -/
theorem version_trace (c : Client) (t : Transport) :
    (version c t).2.2 =
      [{ method := .GET, url := c.full_url "/", body := none }] := by
  unfold version
  split
  · next c1 e trace heq =>
      have h1 := es_op_trace c .GET t "/"
      rw [show get_op c t "/" = es_op c .GET t "/" from rfl] at heq
      rw [heq] at h1
      exact h1
  · next c1 st body trace heq =>
      have h1 := es_op_trace c .GET t "/"
      rw [show get_op c t "/" = es_op c .GET t "/" from rfl] at heq
      rw [heq] at h1
      cases body <;> exact h1

/-! ## Claim theorems -/

/-- C1 counterexample: a response with the success status 200 whose body does
not parse as JSON is classified by `do_req` as an error, not as a success
carrying parsed JSON — refuting the claim that status 200/201/404 always
yields a success outcome. -/
theorem do_req_200_unparseable_not_success :
    do_req { status := 200, rawBody := "not json", parsedBody := none } =
      .error (.EncodingError "not json")
    ∧ isSuccess (do_req { status := 200, rawBody := "not json", parsedBody := none }) = false := by
  exact ⟨rfl, rfl⟩

/-- C1 (amended): for every response processed by `do_req` — if the status is
200, 201 or 404 and the body parses as JSON, the outcome is a success
carrying the parsed body; if the status is 200, 201 or 404 and the body is
absent or unparseable, the outcome is an EncodingError; for every other
status the outcome is an EngineError carrying that status and the raw
body. -/
theorem do_req_status_classification (resp : HttpResponse) :
    (∀ j, (resp.status = 200 ∨ resp.status = 201 ∨ resp.status = 404) →
        resp.parsedBody = some j → do_req resp = .ok (resp.status, some j))
    ∧ ((resp.status = 200 ∨ resp.status = 201 ∨ resp.status = 404) →
        resp.parsedBody = none →
        do_req resp = .error (.EncodingError resp.rawBody))
    ∧ (¬(resp.status = 200 ∨ resp.status = 201 ∨ resp.status = 404) →
        do_req resp = .error (.EngineError resp.status resp.rawBody)) := by
  refine ⟨?_, ?_, ?_⟩
  · intro j hst hb
    unfold do_req
    simp [hst, hb]
  · intro hst hb
    unfold do_req
    simp [hst, hb]
  · intro hst
    unfold do_req
    simp [hst]

/-- C1 witness: the three arms of the classification at concrete
responses. -/
theorem do_req_status_classification_witness :
    do_req { status := 200, rawBody := "ok", parsedBody := some (Json.str "x") } =
      .ok (200, some (Json.str "x"))
    ∧ do_req { status := 404, rawBody := "gone", parsedBody := none } =
      .error (.EncodingError "gone")
    ∧ do_req { status := 500, rawBody := "boom", parsedBody := none } =
      .error (.EngineError 500 "boom") := by
  refine ⟨(do_req_status_classification
      { status := 200, rawBody := "ok", parsedBody := some (Json.str "x") }).1
      (Json.str "x") (Or.inl rfl) rfl,
    (do_req_status_classification
      { status := 404, rawBody := "gone", parsedBody := none }).2.1
      (Or.inr (Or.inr rfl)) rfl,
    (do_req_status_classification
      { status := 500, rawBody := "boom", parsedBody := none }).2.2
      (by decide)⟩

/-- C2: in `es_body_op` the body is serialized before any network activity —
if serialization fails, each body-carrying helper returns an encoding error
with an empty transport trace (no HTTP call is attempted) and an unchanged
client. -/
theorem body_ops_encode_failure_no_send (c : Client) (t : Transport)
    (url e : String) :
    post_body_op c t url (.error e) = (c, .error (.EncodingError e), [])
    ∧ put_body_op c t url (.error e) = (c, .error (.EncodingError e), [])
    ∧ delete_body_op c t url (.error e) = (c, .error (.EncodingError e), []) := by
  exact ⟨rfl, rfl, rfl⟩

/-- C7: a response with status 200, 201 or 404 whose body is absent or fails
to parse as JSON is classified by `do_req` as an EncodingError carrying the
raw body, never as a success. -/
theorem do_req_success_status_bad_body_is_encoding_error (resp : HttpResponse)
    (hst : resp.status = 200 ∨ resp.status = 201 ∨ resp.status = 404)
    (hb : resp.parsedBody = none) :
    do_req resp = .error (.EncodingError resp.rawBody)
    ∧ isSuccess (do_req resp) = false := by
  have h : do_req resp = .error (.EncodingError resp.rawBody) := by
    unfold do_req
    simp [hst, hb]
  exact ⟨h, by rw [h]; rfl⟩

/-- C7 witness: a 200 response with an unparseable body at a concrete
input. -/
theorem do_req_success_status_bad_body_is_encoding_error_witness :
    do_req { status := 200, rawBody := "<html>", parsedBody := none } =
      .error (.EncodingError "<html>")
    ∧ isSuccess (do_req { status := 200, rawBody := "<html>", parsedBody := none }) = false :=
  do_req_success_status_bad_body_is_encoding_error
    { status := 200, rawBody := "<html>", parsedBody := none }
    (Or.inl rfl) rfl

/-- C4: `version` performs exactly one GET on the full URL built from the
path "/", and for every JSON response body its decoder returns `Ok` of the
string at path `version.number` when that path holds a string, and a
descriptive `EsError` when the path is absent or its value is not a string —
never any other outcome. -/
theorem version_single_get_and_decode (c : Client) (t : Transport) (json : Json) :
    (version c t).2.2 = [{ method := .GET, url := c.full_url "/", body := none }]
    ∧ (∀ s, json.find_path ["version", "number"] = some (.str s) →
        version_decode json = .ok s)
    ∧ ((∀ s, json.find_path ["version", "number"] ≠ some (.str s)) →
        ∃ msg, version_decode json = .error (.EsError msg)) := by
  refine ⟨version_trace c t, ?_, ?_⟩
  · intro s hs
    unfold version_decode
    rw [hs]
    rfl
  · intro hns
    unfold version_decode
    cases hf : json.find_path ["version", "number"] with
    | none => exact ⟨_, rfl⟩
    | some v =>
        cases v with
        | str s => exact absurd hf (hns s)
        | null => exact ⟨_, rfl⟩
        | bool b => exact ⟨_, rfl⟩
        | num n => exact ⟨_, rfl⟩
        | arr xs => exact ⟨_, rfl⟩
        | obj fs => exact ⟨_, rfl⟩

/-- C4 witness: the trace at a concrete client and transport, and the two
decode outcomes at concrete JSON values. -/
theorem version_single_get_and_decode_witness :
    (version (Client.new "localhost" 9200) tRefuse).2.2 =
      [{ method := .GET, url := "http://localhost:9200//", body := none }]
    ∧ version_decode
        (Json.obj [("version", Json.obj [("number", Json.str "1.3.2")])]) =
      .ok "1.3.2"
    ∧ ∃ msg, version_decode (Json.obj [("tagline", Json.str "You Know, for Search")]) =
      .error (.EsError msg) := by
  refine ⟨(version_single_get_and_decode (Client.new "localhost" 9200) tRefuse Json.null).1,
    (version_single_get_and_decode (Client.new "localhost" 9200) tRefuse
      (Json.obj [("version", Json.obj [("number", Json.str "1.3.2")])])).2.1
      "1.3.2" rfl,
    (version_single_get_and_decode (Client.new "localhost" 9200) tRefuse
      (Json.obj [("tagline", Json.str "You Know, for Search")])).2.2
      (fun s h => Option.noConfusion h)⟩

/-- C5: for every transport outcome, `version` yields a value (an `Ok` or an
error) rather than the modelled `expect` panic — the "No Json payload"
expectation is unreachable because `do_req` never returns a success outcome
whose body is `None` on status 200/201/404. -/
theorem version_never_panics (c : Client) (t : Transport) :
    ((version c t).2.1).isSome = true
    ∧ ∀ resp st body, do_req resp = .ok (st, body) → body.isSome = true := by
  constructor
  · unfold version
    split
    · rfl
    · next c1 st body trace heq =>
        cases body with
        | some j => rfl
        | none =>
            exfalso
            rw [show get_op c t "/" = es_op c .GET t "/" from rfl] at heq
            unfold es_op at heq
            revert heq
            cases h : t { method := .GET, url := c.full_url "/", body := none } with
            | error e => intro heq; simp [h] at heq
            | ok resp =>
                intro heq
                simp only [h] at heq
                have hd : do_req resp = .ok (st, none) := by
                  have := congrArg (fun p => p.2.1) heq
                  simpa using this
                have := do_req_ok_hasBody resp st none hd
                simp at this
  · exact fun resp st body h => do_req_ok_hasBody resp st body h

/-- C8 counterexample: for the configured host "localhost" and port 9200 and
the operation-supplied path "/" (the path `version` uses), the URL built by
`full_url` is "http://localhost:9200//" — the base URL, a separator "/", and
the path — which differs from the plain concatenation of the base URL and the
path, "http://localhost:9200/". -/
theorem full_url_not_plain_concatenation :
    (Client.new "localhost" 9200).full_url "/" = "http://localhost:9200//"
    ∧ ((Client.new "localhost" 9200).full_url "/" ==
        (Client.new "localhost" 9200).base_url ++ "/") = false := by
  exact ⟨rfl, rfl⟩

/-- C8 (amended): for every configured host and port and every
operation-supplied path, the absolute URL is the configured base URL
("http://host:port"), then a "/" separator, then the path verbatim (no
path-escaping applied by the client). -/
theorem full_url_is_base_slash_path (host : String) (port : Nat) (path : String) :
    (Client.new host port).full_url path =
      "http://" ++ host ++ ":" ++ toString port ++ "/" ++ path
    ∧ ∀ c : Client, c.full_url path = c.base_url ++ "/" ++ path := by
  exact ⟨rfl, fun c => rfl⟩

/-- C9 counterexample: an invocation of the body-carrying helper
`post_body_op` whose body fails to serialize performs zero transport sends,
refuting the claim that every helper invocation performs exactly one
transport send. -/
theorem post_body_op_zero_sends_on_encode_failure :
    (post_body_op (Client.new "localhost" 9200) tRefuse "test_idx"
      (.error "encode failed")).2.2.length = 0 := by
  exact rfl

/-- C9 (amended): each invocation of `get_op`, `post_op`, `put_op` and
`delete_op` performs exactly one transport send regardless of the outcome;
each body-carrying helper performs exactly one send when the body serializes
successfully and zero when serialization fails; no helper ever performs more
than one send (no retry). -/
theorem helpers_send_at_most_once (c : Client) (t : Transport) (url b : String)
    (enc : Except String String) :
    (get_op c t url).2.2.length = 1
    ∧ (post_op c t url).2.2.length = 1
    ∧ (put_op c t url).2.2.length = 1
    ∧ (delete_op c t url).2.2.length = 1
    ∧ (post_body_op c t url (.ok b)).2.2.length = 1
    ∧ (put_body_op c t url (.ok b)).2.2.length = 1
    ∧ (delete_body_op c t url (.ok b)).2.2.length = 1
    ∧ (post_body_op c t url enc).2.2.length ≤ 1
    ∧ (put_body_op c t url enc).2.2.length ≤ 1
    ∧ (delete_body_op c t url enc).2.2.length ≤ 1 := by
  refine ⟨?_, ?_, ?_, ?_, ?_, ?_, ?_,
    es_body_op_trace_le_one c .POST t url enc,
    es_body_op_trace_le_one c .PUT t url enc,
    es_body_op_trace_le_one c .DELETE t url enc⟩
  · rw [show (get_op c t url).2.2 = (es_op c .GET t url).2.2 from rfl,
        es_op_trace]
    rfl
  · rw [show (post_op c t url).2.2 = (es_op c .POST t url).2.2 from rfl,
        es_op_trace]
    rfl
  · rw [show (put_op c t url).2.2 = (es_op c .PUT t url).2.2 from rfl,
        es_op_trace]
    rfl
  · rw [show (delete_op c t url).2.2 = (es_op c .DELETE t url).2.2 from rfl,
        es_op_trace]
    rfl
  · rw [show (post_body_op c t url (.ok b)).2.2 = (es_body_op c .POST t url (.ok b)).2.2 from rfl,
        es_body_op_trace_ok]
    rfl
  · rw [show (put_body_op c t url (.ok b)).2.2 = (es_body_op c .PUT t url (.ok b)).2.2 from rfl,
        es_body_op_trace_ok]
    rfl
  · rw [show (delete_body_op c t url (.ok b)).2.2 = (es_body_op c .DELETE t url (.ok b)).2.2 from rfl,
        es_body_op_trace_ok]
    rfl

/-- Every single helper invocation returns the client unchanged. -/
theorem runCall_client_eq (t : Transport) (c : Client) (call : ClientCall) :
    runCall t c call = c := by
  cases call with
  | getCall u => exact es_op_client_eq c .GET t u
  | postCall u => exact es_op_client_eq c .POST t u
  | putCall u => exact es_op_client_eq c .PUT t u
  | deleteCall u => exact es_op_client_eq c .DELETE t u
  | postBodyCall u e => exact es_body_op_client_eq c .POST t u e
  | putBodyCall u e => exact es_body_op_client_eq c .PUT t u e
  | deleteBodyCall u e => exact es_body_op_client_eq c .DELETE t u e
  | versionCall => exact version_client_eq c t

/-- A sequence of helper invocations returns the client unchanged. -/
theorem runCalls_client_eq (t : Transport) (c : Client) (calls : List ClientCall) :
    runCalls t c calls = c := by
  induction calls generalizing c with
  | nil => rfl
  | cons call rest ih =>
      rw [show runCalls t c (call :: rest) = runCalls t (runCall t c call) rest
            from rfl,
          runCall_client_eq, ih]

/-- C10: after any sequence of client HTTP helper invocations (the GET, POST,
PUT and DELETE helpers, their body-carrying variants, and `version`), the
client's `base_url` field is unchanged and `full_url` produces the same URL
for the same suffix as at construction; `full_url` itself is a pure function
of the client (it takes `&self` and builds a fresh string, mutating
nothing). -/
theorem helpers_preserve_base_url (t : Transport) (c : Client)
    (calls : List ClientCall) (s : String) :
    (runCalls t c calls).base_url = c.base_url
    ∧ (runCalls t c calls).full_url s = c.full_url s := by
  rw [runCalls_client_eq]
  exact ⟨rfl, rfl⟩

/-- A non-delete action serializes as exactly two lines. -/
theorem bulk_to_lines_length_of_not_delete (di dt : Option String)
    (a : bulk.Action) (h : a.isDelete = false) :
    (a.to_lines di dt).length = 2 := by
  cases a with
  | index i d => rfl
  | create i d => rfl
  | update i d => rfl
  | delete i => exact absurd h (by simp [bulk.Action.isDelete])

/-- C3: for a bulk submission whose Actions are all Index/Create/Update, the
NDJSON body holds exactly 2N newline-terminated lines; each non-delete
Action contributes its metadata line immediately followed by its source line
(in submission order, by the shape of `bulk_lines`); each Delete action
contributes exactly one line; and decoding a response whose `items` array
holds one outcome per submitted Action yields an items sequence of length N
in response order (positional alignment). -/
theorem bulk_ndjson_shape (di dt : Option String) (actions : List bulk.Action)
    (j : Json) (e : Bool) (respItems : List Json) :
    ((∀ a ∈ actions, a.isDelete = false) →
        (bulk.bulk_lines di dt actions).length = 2 * actions.length)
    ∧ (∀ (a : bulk.Action) (d : Json), a.doc = some d →
        a.to_lines di dt = [a.meta_line di dt, d])
    ∧ (∀ aid, (bulk.Action.delete aid).to_lines di dt =
        [(bulk.Action.delete aid).meta_line di dt])
    ∧ ((j.find "errors").bind Json.as_boolean = some e →
       (j.find "items").bind Json.as_array = some respItems →
       respItems.length = actions.length →
       bulk.decode_bulk_result j = some { errors := e, items := respItems }
       ∧ (bulk.decode_bulk_result j).map (fun r => r.items.length) =
           some actions.length) := by
  refine ⟨?_, ?_, ?_, ?_⟩
  · intro h
    induction actions with
    | nil => rfl
    | cons a rest ih =>
        have ha : a.isDelete = false := h a (List.mem_cons_self a rest)
        have hrest : ∀ b ∈ rest, bulk.Action.isDelete b = false :=
          fun b hb => h b (List.mem_cons_of_mem a hb)
        rw [show bulk.bulk_lines di dt (a :: rest) =
              a.to_lines di dt ++ bulk.bulk_lines di dt rest from rfl]
        rw [List.length_append, bulk_to_lines_length_of_not_delete di dt a ha,
            ih hrest, List.length_cons]
        omega
  · intro a d h
    cases a with
    | index i dd =>
        simp only [bulk.Action.doc, Option.some.injEq] at h
        rw [← h]
        rfl
    | create i dd =>
        simp only [bulk.Action.doc, Option.some.injEq] at h
        rw [← h]
        rfl
    | update i dd =>
        simp only [bulk.Action.doc, Option.some.injEq] at h
        rw [← h]
        rfl
    | delete i => exact Option.noConfusion h
  · intro aid
    rfl
  · intro he hi hN
    have hd : bulk.decode_bulk_result j = some { errors := e, items := respItems } := by
      unfold bulk.decode_bulk_result
      rw [he, hi]
    refine ⟨hd, ?_⟩
    rw [hd]
    exact congrArg some hN

/-- C3 witness: two non-delete actions give four lines; a delete action gives
one line; decoding a concrete two-item response aligns with the two submitted
actions. -/
theorem bulk_ndjson_shape_witness :
    (bulk.bulk_lines (some "idx") (some "ty")
      [bulk.Action.index none (Json.obj []),
       bulk.Action.create (some "A") (Json.str "d2")]).length = 4
    ∧ ((bulk.Action.delete (some "B")).to_lines (some "idx") (some "ty")).length = 1
    ∧ bulk.decode_bulk_result
        (Json.obj [("errors", Json.bool false),
                    ("items", Json.arr [Json.obj [], Json.obj []])]) =
        some { errors := false, items := [Json.obj [], Json.obj []] } := by
  refine ⟨(bulk_ndjson_shape (some "idx") (some "ty")
      [bulk.Action.index none (Json.obj []),
       bulk.Action.create (some "A") (Json.str "d2")]
      Json.null false []).1 ?_, ?_, ?_⟩
  · intro a ha
    simp only [List.mem_cons, List.not_mem_nil, or_false] at ha
    rcases ha with rfl | rfl <;> rfl
  · rw [(bulk_ndjson_shape (some "idx") (some "ty") [] Json.null false []).2.2.1
        (some "B")]
    rfl
  · exact ((bulk_ndjson_shape (some "idx") (some "ty")
      [bulk.Action.index none (Json.obj []),
       bulk.Action.create (some "A") (Json.str "d2")]
      (Json.obj [("errors", Json.bool false),
                 ("items", Json.arr [Json.obj [], Json.obj []])])
      false [Json.obj [], Json.obj []]).2.2.2 rfl rfl rfl).1

/-- C5 witness: `version` yields a value at a concrete client and transport,
and the body lemma at a concrete successful response. -/
theorem version_never_panics_witness :
    ((version (Client.new "localhost" 9200) tRefuse).2.1).isSome = true
    ∧ (some Json.null : Option Json).isSome = true := by
  refine ⟨(version_never_panics (Client.new "localhost" 9200) tRefuse).1,
    (version_never_panics (Client.new "localhost" 9200) tRefuse).2
      { status := 200, rawBody := "b", parsedBody := some Json.null }
      200 (some Json.null) rfl⟩

/-- Membership in the keys of an optional parameter: the key, and only when
the value is set. -/
theorem mem_opt_param_keys (k key : String) (v : Option String) :
    k ∈ (opt_param key v).map Prod.fst ↔ (k = key ∧ v.isSome = true) := by
  cases v <;> simp [opt_param]

/-- Membership in the keys of an optional bulk metadata field: the key, and
only when the value is set. -/
theorem mem_optField_keys (k key : String) (v : Option String) :
    k ∈ (bulk.optField key v).map Prod.fst ↔ (k = key ∧ v.isSome = true) := by
  cases v <;> simp [bulk.optField]

/-- One setter call can only add its own keys to the serialized optional
parameters: every key present afterwards was present before or belongs to
the setter. -/
theorem applySetter_keys_subset (op : operations.Operation)
    (s : operations.OpSetter) (k : String)
    (hk : k ∈ (op.applySetter s).opt_params.map Prod.fst) :
    k ∈ op.opt_params.map Prod.fst ∨ k ∈ s.skeys := by
  cases op <;> cases s <;>
    simp only [operations.Operation.applySetter, operations.Operation.opt_params,
      operations.OpSetter.skeys, List.map_append, List.mem_append,
      mem_opt_param_keys, List.mem_singleton, List.not_mem_nil,
      List.map_nil] at hk ⊢ <;>
    tauto

/-- A setter sequence can only add its members' keys: every key present after
applying the sequence was present before or belongs to some setter in it. -/
theorem applySetters_keys_subset (ss : List operations.OpSetter)
    (op : operations.Operation) (k : String)
    (hk : k ∈ (op.applySetters ss).opt_params.map Prod.fst) :
    k ∈ op.opt_params.map Prod.fst ∨ ∃ s ∈ ss, k ∈ s.skeys := by
  induction ss generalizing op with
  | nil => exact Or.inl hk
  | cons s rest ih =>
      have hk1 : k ∈ ((op.applySetter s).applySetters rest).opt_params.map Prod.fst := hk
      rcases ih (op.applySetter s) hk1 with h | ⟨s1, hs1, hks1⟩
      · rcases applySetter_keys_subset op s k h with h2 | h2
        · exact Or.inl h2
        · exact Or.inr ⟨s, List.mem_cons_self s rest, h2⟩
      · exact Or.inr ⟨s1, List.mem_cons_of_mem s hs1, hks1⟩

/-- A freshly constructed builder (every optional field absent) serializes no
optional parameter key at all, for every operation. -/
theorem fresh_opt_params_nil (init : operations.OpInit) :
    (init.fresh).opt_params = [] := by
  cases init <;> rfl

/-- C6: for every Operation (Index, Get, Delete, DeleteByQuery, Bulk,
SearchURI, SearchQuery, Analyze, Refresh) and every chained setter sequence
applied to the freshly constructed builder, an optional field that was never
set by a setter call produces no key at all in the serialized request — its
key is simply absent, so in particular it is never serialized as null or as
an empty value; a fresh builder serializes no optional keys; and Bulk's
optional default index/type and an Action's optional id, which serialize
inside the NDJSON metadata lines, likewise produce no `_index`/`_type`/`_id`
key when unset. -/
theorem unset_optional_fields_never_keyed (init : operations.OpInit)
    (ss : List operations.OpSetter) (k : String) :
    ((∀ s ∈ ss, k ∉ s.skeys) →
        k ∉ ((init.fresh).applySetters ss).opt_params.map Prod.fst)
    ∧ (init.fresh).opt_params = []
    ∧ (∀ (dt : Option String) (a : bulk.Action) (fields : List (String × Json)),
        a.meta_line none dt = Json.obj [(a.name, Json.obj fields)] →
        "_index" ∉ fields.map Prod.fst)
    ∧ (∀ (di : Option String) (a : bulk.Action) (fields : List (String × Json)),
        a.meta_line di none = Json.obj [(a.name, Json.obj fields)] →
        "_type" ∉ fields.map Prod.fst)
    ∧ (∀ (di dt : Option String) (a : bulk.Action) (fields : List (String × Json)),
        a.id = none →
        a.meta_line di dt = Json.obj [(a.name, Json.obj fields)] →
        "_id" ∉ fields.map Prod.fst) := by
  refine ⟨?_, fresh_opt_params_nil init, ?_, ?_, ?_⟩
  · intro hss hk
    rcases applySetters_keys_subset ss (init.fresh) k hk with h | ⟨s, hs, hks⟩
    · rw [fresh_opt_params_nil init] at h
      exact List.not_mem_nil k h
    · exact hss s hs hks
  · intro dt a fields h
    simp only [bulk.Action.meta_line, Json.obj.injEq, List.cons.injEq,
      Prod.mk.injEq, and_true, true_and] at h
    rw [← h]
    intro hmem
    simp only [List.map_append, List.mem_append, mem_optField_keys] at hmem
    rcases hmem with (⟨h1, h2⟩ | ⟨h1, h2⟩) | ⟨h1, h2⟩ <;> simp_all
  · intro di a fields h
    simp only [bulk.Action.meta_line, Json.obj.injEq, List.cons.injEq,
      Prod.mk.injEq, and_true, true_and] at h
    rw [← h]
    intro hmem
    simp only [List.map_append, List.mem_append, mem_optField_keys] at hmem
    rcases hmem with (⟨h1, h2⟩ | ⟨h1, h2⟩) | ⟨h1, h2⟩ <;> simp_all
  · intro di dt a fields hid h
    simp only [bulk.Action.meta_line, Json.obj.injEq, List.cons.injEq,
      Prod.mk.injEq, and_true, true_and] at h
    rw [← h]
    intro hmem
    simp only [List.map_append, List.mem_append, mem_optField_keys, hid] at hmem
    rcases hmem with (⟨h1, h2⟩ | ⟨h1, h2⟩) | ⟨h1, h2⟩ <;> simp_all

/-- C6 witness: an Index builder that only set an id serializes no `ttl` key;
a fresh SearchURI builder serializes no optional keys; a Delete action's bulk
metadata line with no default index carries no `_index` key. -/
theorem unset_optional_fields_never_keyed_witness :
    "ttl" ∉ (((operations.OpInit.indexInit "test_idx" "test_type").fresh).applySetters
        [operations.OpSetter.withId "X"]).opt_params.map Prod.fst
    ∧ ((operations.OpInit.searchUriInit).fresh).opt_params = []
    ∧ "_index" ∉ ([("_type", Json.str "ty"), ("_id", Json.str "B")] :
        List (String × Json)).map Prod.fst := by
  refine ⟨(unset_optional_fields_never_keyed
      (operations.OpInit.indexInit "test_idx" "test_type")
      [operations.OpSetter.withId "X"] "ttl").1 ?_,
    (unset_optional_fields_never_keyed operations.OpInit.searchUriInit [] "q").2.1,
    (unset_optional_fields_never_keyed operations.OpInit.searchUriInit [] "q").2.2.1
      (some "ty") (bulk.Action.delete (some "B"))
      [("_type", Json.str "ty"), ("_id", Json.str "B")] rfl⟩
  intro s hs
  simp only [List.mem_singleton] at hs
  rw [hs]
  simp [operations.OpSetter.skeys]
